import Mathlib

/-!
Verification development for the core of the `datak` industrial IoT edge
gateway (Python backend under `backend/app/`).

The Python code is shallowly embedded: Python floats are modelled as exact
rationals (`ℚ`), Python dictionaries as lookup functions
`String → Option _` (with `{**a, **b}` becoming a right-biased merge),
exceptions as `Except`, and timestamps as rationals (epoch seconds).
Library functions whose floating-point semantics cannot be represented
exactly over `ℚ` (`log`, `exp`, trigonometry, …) are mapped to an explicit
placeholder; no theorem evaluates them.
-/

/-! ## Python values and expressions

A small model of the Python expression fragment that the formula engine
(`backend/app/core/formula.py`) and the automation engine
(`backend/app/services/automation.py`) evaluate: numeric literals, names,
arithmetic, comparisons, and calls of named functions of one or two
arguments (the only arities the code uses).
-/

/-- A Python runtime value: a number (`int`/`float` collapsed to `ℚ`),
a boolean, `None`, or a function object identified by its name. -/
inductive PyVal where
  | num : ℚ → PyVal
  | boolV : Bool → PyVal
  | noneV : PyVal
  | fnV : String → PyVal
deriving Repr, DecidableEq

/-- Python exception classes relevant to formula / rule evaluation. -/
inductive PyExc where
  | nameError : String → PyExc
  | zeroDivision : PyExc
  | typeErr : PyExc
  | valueErr : PyExc
deriving Repr, DecidableEq

deriving instance DecidableEq for Except

/-- Python expressions, as used in `data_formula` strings and automation
rule conditions: literals, names, unary minus, arithmetic, comparisons,
and calls of a named function with one or two arguments. -/
inductive FExpr where
  | lit : ℚ → FExpr
  | boolLit : Bool → FExpr
  | noneLit : FExpr
  | name : String → FExpr
  | neg : FExpr → FExpr
  | add : FExpr → FExpr → FExpr
  | sub : FExpr → FExpr → FExpr
  | mul : FExpr → FExpr → FExpr
  | div : FExpr → FExpr → FExpr
  | lt : FExpr → FExpr → FExpr
  | gt : FExpr → FExpr → FExpr
  | call1 : String → FExpr → FExpr
  | call2 : String → FExpr → FExpr → FExpr
deriving Repr, DecidableEq

/-- Numeric coercion used by Python's arithmetic and comparisons:
numbers stand for themselves, `True`/`False` are `1`/`0`, and `None`
or a function participating in arithmetic raises `TypeError`. -/
def toNum : PyVal → Except PyExc ℚ
  | .num q => .ok q
  | .boolV b => .ok (if b then 1 else 0)
  | .noneV => .error .typeErr
  | .fnV _ => .error .typeErr

/-- Python truthiness (`if is_met:`): zero, `False` and `None` are falsy;
everything else here is truthy. -/
def pyTruthy : PyVal → Bool
  | .num q => decide (q ≠ 0)
  | .boolV b => b
  | .noneV => false
  | .fnV _ => true

/-- Python `float(-)` applied to a value: numbers and booleans convert,
`float(None)` and `float(<function>)` raise `TypeError`. -/
def pyFloat : PyVal → Except PyExc ℚ
  | .num q => .ok q
  | .boolV b => .ok (if b then 1 else 0)
  | .noneV => .error .typeErr
  | .fnV _ => .error .typeErr

/-- Python `int(-)` truncates toward zero. -/
def pyTrunc (q : ℚ) : ℤ := if 0 ≤ q then ⌊q⌋ else ⌈q⌉

/-- Python 3 `round` (round-half-to-even) on a rational. -/
def pyRoundHalfEven (q : ℚ) : ℤ :=
  let f : ℤ := ⌊q⌋
  let r : ℚ := q - f
  if r < 1/2 then f
  else if 1/2 < r then f + 1
  else if Even f then f else f + 1

/-- Integer-exact square root `⌊√(num·den)⌋ / den`: exact on rationals that are perfect squares
(the only inputs any theorem uses); an under-approximation elsewhere,
standing in for `math.sqrt`'s inexact float result. -/
def ratSqrt (q : ℚ) : ℚ := ((Nat.sqrt (q.num.toNat * q.den) : ℚ)) / (q.den : ℚ)

/-- Placeholder for library functions whose float results are not
representable over `ℚ` (`log`, `exp`, trigonometry, `degrees`, …).
No theorem in this file evaluates any of these functions. -/
def unmodeledReal (f : String) (q : ℚ) : ℚ := 0 * q + String.length f * 0

/-- The exact rational value of the IEEE-754 double `math.pi`. -/
def pyPi : ℚ := (884279719003555 : ℚ) / 281474976710656

/-- The exact rational value of the IEEE-754 double `math.e`. -/
def pyE : ℚ := (6121026514868073 : ℚ) / 2251799813685248

/-- Names of safe functions whose float semantics are not modelled
exactly; applying one returns `unmodeledReal`. -/
def transcendentalNames : List String :=
  ["log", "log10", "log2", "exp", "sin", "cos", "tan", "asin", "acos",
   "atan", "degrees", "radians"]

/-- Application of a named one-argument function from the safe set
(`ALLOWED_BUILTINS` of `core/formula.py`, plus the four builtins the
automation engine exposes). Arity or argument-type misuse raises
`TypeError`; `math.sqrt` of a negative raises `ValueError`
("math domain error"). -/
def applyFn1 (f : String) (v : PyVal) : Except PyExc PyVal :=
  if f = "abs" ∨ f = "fabs" then do
    let q ← toNum v
    pure (.num |q|)
  else if f = "round" then do
    let q ← toNum v
    pure (.num (pyRoundHalfEven q))
  else if f = "sqrt" then do
    let q ← toNum v
    if q < 0 then throw .valueErr else pure (.num (ratSqrt q))
  else if f = "floor" then do
    let q ← toNum v
    pure (.num ⌊q⌋)
  else if f = "ceil" then do
    let q ← toNum v
    pure (.num ⌈q⌉)
  else if f = "int" then do
    let q ← toNum v
    pure (.num (pyTrunc q))
  else if f = "float" then do
    let q ← pyFloat v
    pure (.num q)
  else if f = "bool" then pure (.boolV (pyTruthy v))
  else if f ∈ transcendentalNames then do
    let q ← toNum v
    pure (.num (unmodeledReal f q))
  else
    -- wrong arity for min/max/pow/atan2, or sum/len of a scalar
    .error .typeErr

/-- Application of a named two-argument function from the safe set. -/
def applyFn2 (f : String) (v w : PyVal) : Except PyExc PyVal :=
  if f = "min" then do
    let a ← toNum v
    let b ← toNum w
    pure (.num (min a b))
  else if f = "max" then do
    let a ← toNum v
    let b ← toNum w
    pure (.num (max a b))
  else if f = "pow" then do
    let a ← toNum v
    let b ← toNum w
    if b.den = 1 then
      if 0 ≤ b.num then pure (.num (a ^ b.num.toNat))
      else if a = 0 then throw .zeroDivision
      else pure (.num (a ^ b.num))
    else pure (.num (unmodeledReal f a))
  else if f = "atan2" then do
    let a ← toNum v
    let _ ← toNum w
    pure (.num (unmodeledReal f a))
  else
    .error .typeErr

/-- Evaluation of an expression under a name environment, with Python
semantics: unknown names raise `NameError`, division by zero raises
`ZeroDivisionError`, arithmetic on non-numbers raises `TypeError`,
calling a non-function raises `TypeError`. -/
def pyEval (env : String → Option PyVal) : FExpr → Except PyExc PyVal
  | .lit q => .ok (.num q)
  | .boolLit b => .ok (.boolV b)
  | .noneLit => .ok .noneV
  | .name n =>
    match env n with
    | some v => .ok v
    | none => .error (.nameError n)
  | .neg e => do
    let q ← toNum (← pyEval env e)
    pure (.num (-q))
  | .add a b => do
    let x ← toNum (← pyEval env a)
    let y ← toNum (← pyEval env b)
    pure (.num (x + y))
  | .sub a b => do
    let x ← toNum (← pyEval env a)
    let y ← toNum (← pyEval env b)
    pure (.num (x - y))
  | .mul a b => do
    let x ← toNum (← pyEval env a)
    let y ← toNum (← pyEval env b)
    pure (.num (x * y))
  | .div a b => do
    let x ← toNum (← pyEval env a)
    let y ← toNum (← pyEval env b)
    if y = 0 then throw .zeroDivision else pure (.num (x / y))
  | .lt a b => do
    let x ← toNum (← pyEval env a)
    let y ← toNum (← pyEval env b)
    pure (.boolV (decide (x < y)))
  | .gt a b => do
    let x ← toNum (← pyEval env a)
    let y ← toNum (← pyEval env b)
    pure (.boolV (decide (y < x)))
  | .call1 f a =>
    match env f with
    | none => .error (.nameError f)
    | some (.fnV g) => do
      let v ← pyEval env a
      applyFn1 g v
    | some _ => .error .typeErr
  | .call2 f a b =>
    match env f with
    | none => .error (.nameError f)
    | some (.fnV g) => do
      let v ← pyEval env a
      let w ← pyEval env b
      applyFn2 g v w
    | some _ => .error .typeErr

/-- Right-biased merge of two lookup environments: the model of the
Python dict union `{**a, **b}` (entries of `b` win). -/
def pyUnion {α : Type} (a b : String → Option α) : String → Option α :=
  fun n => (b n).orElse (fun _ => a n)

/-- All identifiers occurring in an expression (names referenced and
functions called) — the tokens the string-level validation regexes see. -/
def FExpr.names : FExpr → List String
  | .lit _ | .boolLit _ | .noneLit => []
  | .name n => [n]
  | .neg e => e.names
  | .add a b | .sub a b | .mul a b | .div a b | .lt a b | .gt a b =>
    a.names ++ b.names
  | .call1 f a => f :: a.names
  | .call2 f a b => f :: (a.names ++ b.names)

/-! ## Formula engine (`backend/app/core/formula.py`)

`validate_formula` checks a list of forbidden regex patterns over the
formula string and then compiles `"_result_ = <formula>"` with
RestrictedPython; `evaluate_formula` re-validates, builds a restricted
environment and executes the same compiled statement, mapping Python
exceptions to `FormulaError` categories distinguished by their message.
-/

/-- The keys of `ALLOWED_BUILTINS` that are functions. -/
def safeFunctionNames : List String :=
  ["abs", "round", "min", "max", "pow", "sum", "len", "sqrt", "log",
   "log10", "log2", "exp", "sin", "cos", "tan", "asin", "acos", "atan",
   "atan2", "degrees", "radians", "floor", "ceil", "fabs", "int",
   "float", "bool"]

/-- The `ALLOWED_BUILTINS` dict of `core/formula.py` as an environment:
the safe functions, plus the constants `pi` and `e`. -/
def ALLOWED_BUILTINS : String → Option PyVal := fun n =>
  if n = "pi" then some (.num pyPi)
  else if n = "e" then some (.num pyE)
  else if n ∈ safeFunctionNames then some (.fnV n) else none

/-- The words of `FORBIDDEN_PATTERNS` (each is `\b<word>\b` with
`re.IGNORECASE`; on an identifier token this is a case-insensitive
whole-identifier match). The dunder pattern `\b__\w+__\b` is handled
separately by `isDunderName`. -/
def FORBIDDEN_WORDS : List String :=
  ["import", "exec", "eval", "open", "file", "os", "sys", "subprocess",
   "socket", "globals", "locals", "getattr", "setattr", "delattr",
   "compile"]

/-- Does identifier `n` match the pattern `\b<w>\b` case-insensitively? -/
def matchesWord (w n : String) : Bool := n.toLower = w

/-- Does identifier `n` match the dunder pattern `\b__\w+__\b`? -/
def isDunderName (n : String) : Bool :=
  n.startsWith "__" && n.endsWith "__" && 5 ≤ n.length

/-- First forbidden pattern (in `FORBIDDEN_PATTERNS` order, dunder
after `file`) matched by some identifier of the formula. -/
def findForbidden (e : FExpr) : Option String :=
  let ns := e.names
  match ["import", "exec", "eval", "open", "file"].find?
      (fun w => ns.any (matchesWord w)) with
  | some w => some w
  | none =>
    if ns.any isDunderName then some "__dunder__"
    else ["os", "sys", "subprocess", "socket", "globals", "locals",
          "getattr", "setattr", "delattr", "compile"].find?
        (fun w => ns.any (matchesWord w))

/-- RestrictedPython's name policy (`RestrictingNodeTransformer.check_name`):
any identifier that starts with an underscore — other than the bare `_` —
is rejected with `"<name>" is an invalid variable name because it starts
with "_"`. -/
def restrictedName (n : String) : Bool :=
  (n.data.head? == some '_') && n ≠ "_"

/-- Errors produced by `compile_restricted_exec` on the statement
`<target> = <formula>`: the assignment target is itself a checked name,
followed by every underscore-prefixed identifier of the formula. -/
def compileRestrictedErrors (target : String) (e : FExpr) : List String :=
  ((if restrictedName target then [target] else []) ++
    e.names.filter restrictedName).map
    (fun n => "\"" ++ n ++ "\" is an invalid variable name because it starts with \"_\"")

/-- The function `validate_formula`: forbidden-pattern scan, then RestrictedPython
compilation of `"_result_ = <formula>"`. (The empty-string check has no
counterpart here: an `FExpr` is never the empty formula.) Returns
`(is_valid, error_message)`. -/
def validate_formula (e : FExpr) : Bool × Option String :=
  match findForbidden e with
  | some w => (false, some ("Forbidden pattern detected: " ++ w))
  | none =>
    match compileRestrictedErrors "_result_" e with
    | [] => (true, none)
    | errs => (false, some (String.intercalate "; " errs))

/-- The `FormulaError` categories, distinguished in the source by message
prefix: `Invalid formula:` / `Compilation errors:`, `Division by zero`,
`Type error in formula:`, `Formula produced no result`, and the generic
`Formula execution failed:`. -/
inductive FormulaErr where
  | invalidFormula : String → FormulaErr
  | divisionByZero : FormulaErr
  | typeError : FormulaErr
  | noResult : FormulaErr
  | runtimeError : String → FormulaErr
deriving Repr, DecidableEq

/-- The local-variable environment `evaluate_formula` builds: `val`,
`value` and `x` bound to the input, then `extra_vars` entries of safe
type (number, boolean; `None` and functions are filtered out) whose key
does not start with `_` — assigned afterwards, so they win collisions. -/
def formulaLocals (val : ℚ) (extraVars : List (String × PyVal)) :
    String → Option PyVal :=
  let base : String → Option PyVal := fun n =>
    if n = "val" ∨ n = "value" ∨ n = "x" then some (.num val) else none
  let keep : PyVal → Bool := fun v =>
    match v with
    | .num _ => true
    | .boolV _ => true
    | .noneV => false
    | .fnV _ => false
  pyUnion base (fun n =>
    if n.startsWith "_" then none
    else ((extraVars.reverse.find? (fun p => p.1 = n)).filter
      (fun p => keep p.2)).map (·.2))

/-- The function `evaluate_formula formula val extra_vars`: validate, re-compile,
execute under `locals ∪ ALLOWED_BUILTINS`, convert the result with
`float`, and map Python exceptions to `FormulaError` categories exactly
as the `except` clauses of the source do. -/
def evaluate_formula (e : FExpr) (val : ℚ)
    (extraVars : List (String × PyVal) := []) : Except FormulaErr ℚ :=
  match validate_formula e with
  | (false, err) => .error (.invalidFormula ("Invalid formula: " ++ err.getD ""))
  | (true, _) =>
    match compileRestrictedErrors "_result_" e with
    | _ :: _ => .error (.invalidFormula "Compilation errors")
    | [] =>
      let env := pyUnion ALLOWED_BUILTINS (formulaLocals val extraVars)
      match pyEval env e with
      | .error .zeroDivision => .error .divisionByZero
      | .error .typeErr => .error .typeError
      | .error .valueErr => .error .typeError
      | .error (.nameError n) =>
        .error (.runtimeError ("Formula execution failed: name '" ++ n ++ "' is not defined"))
      | .ok .noneV => .error .noResult
      | .ok v =>
        match pyFloat v with
        | .ok q => .ok q
        | .error _ => .error .typeError

/-! ## Automation engine (`backend/app/services/automation.py`)

`AutomationEngine._handle_update` caches the latest processed value per
sensor name and runs `_evaluate_rules`, which iterates the rules in
order, skips a rule inside its cooldown window, evaluates its condition
with the plain builtin `eval` under
`eval_locals = {**{"abs": abs, "max": max, "min": min, "round": round},
**{**self._sensor_values, **self._stats_values}}`, and on a truthy
condition computes the action value and calls
`orchestrator.write_sensor`, setting `last_triggered` afterwards.
-/

/-- An automation rule (`AutomationRule`), with `last_triggered`
initialised to `0.0` by the constructor. -/
structure ARule where
  cooldown : ℚ
  lastTriggered : ℚ
  condition : FExpr
  targetSensorId : ℤ
  targetValue : ℚ
  targetFormula : Option FExpr
deriving Repr, DecidableEq

/-- Outcome of a `orchestrator.write_sensor` invocation, as seen by the
automation engine: the driver is absent or stopped (returns `False`
without touching any driver), the driver's `write` returned a boolean,
or the driver's `write` raised (re-raised by `write_sensor`). -/
inductive WriteRes where
  | notFound : WriteRes
  | notRunning : WriteRes
  | retOk : Bool → WriteRes
  | raises : WriteRes
deriving Repr, DecidableEq

/-- A record of one `write_sensor` invocation made by `_evaluate_rules`. -/
structure WriteCall where
  time : ℚ
  target : ℤ
  value : ℚ
  res : WriteRes
deriving Repr, DecidableEq

/-- The `allowed_names` dict of `_evaluate_rules`:
`{"abs": abs, "max": max, "min": min, "round": round}`. -/
def autoAllowedNames : String → Option PyVal := fun n =>
  if n = "abs" ∨ n = "max" ∨ n = "min" ∨ n = "round" then some (.fnV n)
  else none

/-- The evaluation environment `_evaluate_rules` builds:
`{**allowed_names, **{**sensor_values, **stats_values}}` — the caches
override the four builtins, stats override sensor values. -/
def automationEnv (sensorValues statsValues : String → Option ℚ) :
    String → Option PyVal :=
  pyUnion autoAllowedNames
    (pyUnion (fun n => (sensorValues n).map PyVal.num)
      (fun n => (statsValues n).map PyVal.num))

/-- Modelled from the spec: "the same safe function set plus a supplied
map from identifier → scalar provides the evaluation environment" — the
environment the claim says rule conditions are evaluated in: the formula
engine's full safe function set united with the sensor value cache and
the stats cache. -/
def specMultiVarEnv (sensorValues statsValues : String → Option ℚ) :
    String → Option PyVal :=
  pyUnion ALLOWED_BUILTINS
    (pyUnion (fun n => (sensorValues n).map PyVal.num)
      (fun n => (statsValues n).map PyVal.num))

/-- The action value for a firing rule:
`float(eval(target_formula, …))` when `target_formula` is set, else the
literal `target_value`. -/
def targetWriteValue (env : String → Option PyVal) (r : ARule) :
    Except PyExc ℚ :=
  match r.targetFormula with
  | none => .ok r.targetValue
  | some tf => do
    let v ← pyEval env tf
    pyFloat v

/-- One pass of `_evaluate_rules` over the rule list, at wall-clock time
`now`, with write outcomes given by the oracle `wr target value`.
Each output rule is paired with the `write_sensor` call it made (if any).
The returned flag is true when the pass aborted early: a failing
`target_formula` executes `return`, leaving every remaining rule
unevaluated. A raising `write_sensor` is caught by the per-rule
`except` (the loop continues) and skips the `last_triggered` update;
every other outcome sets `last_triggered = now`. A raising condition
is caught by the same `except` and the loop continues. -/
def evalRulesGo (now : ℚ) (env : String → Option PyVal)
    (wr : ℤ → ℚ → WriteRes) :
    List ARule → List (ARule × Option WriteCall) × Bool
  | [] => ([], false)
  | r :: rest =>
    if now - r.lastTriggered < r.cooldown then
      ((r, none) :: (evalRulesGo now env wr rest).1,
       (evalRulesGo now env wr rest).2)
    else
      match pyEval env r.condition with
      | .error _ =>
        ((r, none) :: (evalRulesGo now env wr rest).1,
         (evalRulesGo now env wr rest).2)
      | .ok v =>
        if pyTruthy v then
          match targetWriteValue env r with
          | .error _ => ((r, none) :: rest.map (fun s => (s, none)), true)
          | .ok q =>
            let res := wr r.targetSensorId q
            let c : WriteCall := ⟨now, r.targetSensorId, q, res⟩
            let r' := if res = .raises then r
                      else { r with lastTriggered := now }
            ((r', some c) :: (evalRulesGo now env wr rest).1,
             (evalRulesGo now env wr rest).2)
        else
          ((r, none) :: (evalRulesGo now env wr rest).1,
           (evalRulesGo now env wr rest).2)

/-- Automation engine state: the rule list (dict iteration order), the
two caches, and the running flag. -/
structure AutoState where
  rules : List ARule
  sensorValues : String → Option ℚ
  statsValues : String → Option ℚ
  running : Bool

/-- One incoming processed-value event as `_handle_update` sees it:
its wall-clock time, the orchestrator registry lookup for the event's
`sensor_id` (`None` when the driver is gone — the update is then
dropped), the processed value, and the per-event write oracle. -/
structure AutoEvent where
  time : ℚ
  driverName : Option String
  value : ℚ
  wr : ℤ → ℚ → WriteRes

/-- The handler `_handle_update`: drop the event if the engine is stopped or the
sensor has no registered driver; otherwise update the value cache under
the driver's sensor name and run one `_evaluate_rules` pass. Returns the
new state and, aligned with the rule list, each rule's write call. -/
def autoStep (st : AutoState) (ev : AutoEvent) :
    AutoState × List (Option WriteCall) :=
  if ¬ st.running then (st, st.rules.map (fun _ => none))
  else
    match ev.driverName with
    | none => (st, st.rules.map (fun _ => none))
    | some nm =>
      let sv := fun n => if n = nm then some ev.value else st.sensorValues n
      let env := automationEnv sv st.statsValues
      let z := (evalRulesGo ev.time env ev.wr st.rules).1
      ({ st with rules := z.map (fun p => p.1), sensorValues := sv },
       z.map (fun p => p.2))

/-- The `write_sensor` calls made on behalf of the rule at index `i`
over a sequence of value events, in order. -/
def callsForRule (i : ℕ) : AutoState → List AutoEvent → List WriteCall
  | _, [] => []
  | st, ev :: evs =>
    match (autoStep st ev).2[i]? with
    | some (some c) => c :: callsForRule i (autoStep st ev).1 evs
    | _ => callsForRule i (autoStep st ev).1 evs

/-! ## Orchestrator (`backend/app/services/orchestrator.py`)

Registry state is `_drivers : {sensor_id → driver}` and
`_formulas : {sensor_id → formula}`. `_handle_value` applies
`_formulas.get(sensor_id, "val")` to the raw value (falling back to the
raw value on `FormulaError`) and delivers the tuple to every registered
processed-value callback.
-/

/-- The driver entry the orchestrator keeps per sensor id (the fields
the modelled operations consult). -/
structure DriverEntry where
  sensorName : String
  running : Bool
deriving Repr, DecidableEq

/-- Orchestrator registry state. -/
structure OrchState where
  drivers : ℤ → Option DriverEntry
  formulas : ℤ → Option FExpr

/-- The `DRIVER_CLASSES` mapping of `orchestrator.py`, keyed by protocol
value, with the driver class as a string. (The source spells the last
key `SensorProtocol.VIRTUAL_OUTPUT.value`, an enum member that
`models/sensor.py` actually names `VIRTUAL`; the mapping as written is
modelled here.) -/
def DRIVER_CLASSES : String → Option String := fun p =>
  if p = "MODBUS_TCP" then some "ModbusDriver"
  else if p = "MODBUS_RTU" then some "ModbusDriver"
  else if p = "CAN" then some "CANDriver"
  else if p = "MQTT" then some "MQTTDriver"
  else if p = "SYSTEM" then some "SystemDriver"
  else if p = "VIRTUAL_OUTPUT" then some "VirtualOutputDriver"
  else none

/-- The operation `remove_sensor`: pop the id from both `_drivers` and `_formulas`,
then stop the driver. Returns `True` iff a driver was present. -/
def removeSensor (st : OrchState) (sid : ℤ) : OrchState × Bool :=
  ({ drivers := fun i => if i = sid then none else st.drivers i,
     formulas := fun i => if i = sid then none else st.formulas i },
   (st.drivers sid).isSome)

/-- Which step of `add_sensor`'s `try` block raises, if any. Driver
construction can raise (e.g. a driver `__init__` rejecting its config);
`await driver.start()` can raise (e.g. a status callback failing). -/
inductive AddFailure where
  | ok : AddFailure
  | constructRaises : AddFailure
  | startRaises : AddFailure
deriving Repr, DecidableEq

/-- The operation `add_sensor`: remove any existing driver for the id, resolve the
protocol class (unknown protocol returns `False` with the state
unchanged), then construct the driver, store the formula, and start the
driver — in that order, inside one `try` whose `except` returns `False`.
A construction failure therefore leaves both maps untouched, while a
`start` failure leaves the stored formula behind (only
`self._drivers[sensor_id] = driver` was never reached). -/
def addSensor (st : OrchState) (sid : ℤ) (sensorName : String)
    (protocol : String) (formula : FExpr) (failure : AddFailure) :
    OrchState × Bool :=
  let st := if (st.drivers sid).isSome then (removeSensor st sid).1 else st
  match DRIVER_CLASSES protocol with
  | none => (st, false)
  | some _ =>
    match failure with
    | .constructRaises => (st, false)
    | .startRaises =>
      ({ st with
          formulas := fun i => if i = sid then some formula else st.formulas i },
       false)
    | .ok =>
      ({ drivers := fun i =>
            if i = sid then some ⟨sensorName, true⟩ else st.drivers i,
         formulas := fun i => if i = sid then some formula else st.formulas i },
       true)

/-- The handler `_handle_value`: look up the formula with default `"val"`, evaluate
it (`FormulaError` falls back to the raw value), and deliver
`(sensor_id, raw, processed, ts)` to each of the `n` registered
processed-value callbacks in registration order (a failing callback is
caught and skipped, so delivery is unconditional). The result is the
list of (callback index, payload) deliveries. -/
def handleValue (st : OrchState) (sid : ℤ) (raw ts : ℚ) (n : ℕ) :
    List (ℕ × ℤ × ℚ × ℚ × ℚ) :=
  let formula := (st.formulas sid).getD (FExpr.name "val")
  let processed :=
    match evaluate_formula formula raw with
    | .ok v => v
    | .error _ => raw
  (List.range n).map (fun i => (i, sid, raw, processed, ts))

/-! ## Virtual-output driver (`backend/app/drivers/virtual_output.py`)

`VirtualOutputDriver.write` stores the value, stamps
`_last_write_time`, attempts a direct sink write (exceptions are caught
and logged), and then executes `self.last_value = value`. `last_value`
is defined in `drivers/base.py` solely as a `@property` getter, so the
assignment raises `AttributeError` and `return True` is unreachable.
-/

/-- The base class `drivers/base.py` defines `last_value` as a read-only `@property`
(getter only, lines 322–325); assigning to it raises `AttributeError`. -/
def baseDriverLastValueHasSetter : Bool := false

/-- Virtual-output driver state touched by `write`. -/
structure VOState where
  currentValue : ℚ
  lastWriteTime : Option ℚ
deriving Repr, DecidableEq

/-- The observable effects of one `VirtualOutputDriver.write` call. -/
structure VOWriteOutcome where
  state : VOState
  sinkWriteAttempted : Bool
  result : Except String Bool
deriving Repr

/-- The method `VirtualOutputDriver.write(value)` at wall-clock time `now`:
update `_current_value` and `_last_write_time`, attempt the InfluxDB
write (its exceptions are swallowed), then assign `self.last_value` —
which raises `AttributeError` because the base-class property has no
setter — so `return True` is never reached. -/
def virtualOutputWrite (_st : VOState) (value now : ℚ) : VOWriteOutcome :=
  let st' : VOState := { currentValue := value, lastWriteTime := some now }
  if baseDriverLastValueHasSetter then ⟨st', true, .ok true⟩
  else ⟨st', true, .error "AttributeError"⟩

/-- The operation `orchestrator.write_sensor` on a virtual-output sensor: absent or
stopped drivers return `False`; otherwise the driver `write` runs and
its exception is re-raised by `write_sensor`'s `except`. -/
def writeSensorVirtualOutput (present running : Bool) (st : VOState)
    (value now : ℚ) : Except String Bool :=
  if ¬ present then .ok false
  else if ¬ running then .ok false
  else (virtualOutputWrite st value now).result

/-! ## Store-and-forward buffer (`backend/app/services/buffer.py`)

The durable table of `SensorReading` rows is modelled as a list with
unique ids. `flush` selects up to `batch_size` unsynced rows ordered by
timestamp, submits them, and marks the accepted prefix
(`readings[:written]`) synced; `cleanup_synced` deletes synced rows with
`synced_at < cutoff`.
-/

/-- A buffered `SensorReading` row (the columns the claims concern). -/
structure BufReading where
  id : ℕ
  sensorId : ℤ
  timestamp : ℚ
  synced : Bool
  syncedAt : Option ℚ
deriving Repr, DecidableEq

/-- The `flush` selection: unsynced rows in ascending timestamp order
(`.where(synced == False).order_by(timestamp)`), before the limit.
(SQL leaves the relative order of equal timestamps unspecified; a stable
sort is one valid refinement.) -/
def unsyncedSorted (db : List BufReading) : List BufReading :=
  (db.filter (fun r => !r.synced)).insertionSort
    (fun a b => a.timestamp ≤ b.timestamp)

/-- One `flush` call on the rows `db` at wall-clock time `now`:
`connected` is `influx_client.is_connected`; `written` is the count the
sink's `write_batch` reports. If the connection is down or the
selection is empty the table is unchanged; if `written > 0` exactly the
rows whose ids are in `readings[:written]` get `synced=True` and a
`synced_at` stamp, and the rest are left as-is (a sink failure changes
nothing). -/
def flushStep (batchSize : ℕ) (db : List BufReading)
    (connected : Bool) (written : ℕ) (now : ℚ) : List BufReading :=
  if ¬ connected then db
  else
    let selected := (unsyncedSorted db).take batchSize
    if selected.isEmpty then db
    else if 0 < written then
      let ids : List ℕ := (selected.take written).map (fun r => r.id)
      db.map (fun r =>
        if r.id ∈ ids then { r with synced := true, syncedAt := some now }
        else r)
    else db

/-- The parameters of one `flush` call that are outside the buffer's
control: sink connectivity, the reported written count, and the clock. -/
structure FlushEnv where
  connected : Bool
  written : ℕ
  now : ℚ

/-- A sequence of `flush` calls. -/
def flushRun (batchSize : ℕ) : List BufReading → List FlushEnv → List BufReading
  | db, [] => db
  | db, e :: es => flushRun batchSize (flushStep batchSize db e.connected e.written e.now) es

/-- The operation `cleanup_synced(older_than_hours)` at wall-clock time `now`: the
source computes `cutoff = datetime.utcnow()` — the `older_than_hours`
argument is never used — and deletes every row with `synced == True`
and `synced_at < cutoff` (a SQL comparison, so rows with `synced_at`
NULL are not matched). Returns the surviving rows and the deleted
count. -/
def cleanupSynced (db : List BufReading) (olderThanHours : ℚ) (now : ℚ) :
    List BufReading × ℕ :=
  let _ := olderThanHours
  let cutoff := now
  let doomed : BufReading → Bool := fun r =>
    r.synced && (match r.syncedAt with
                 | some t => decide (t < cutoff)
                 | none => false)
  (db.filter (fun r => !doomed r), (db.filter doomed).length)

/-! ## Modbus driver (`backend/app/drivers/modbus.py`)

The value-extraction portion of `ModbusDriver.read` (lines 139–153):
boolean register types return the first bit; numeric types return the
first 16-bit register for `count=1`, the big-endian 32-bit
concatenation for `count=2`, and the first register otherwise.
`none` models the `IndexError` of an out-of-range register access. -/

/-- Extraction of the raw scalar from a successful Modbus response. -/
def modbusReadValue (registerType : String) (count : ℕ) (bits : List Bool)
    (registers : List ℕ) : Option ℚ :=
  if registerType = "coil" ∨ registerType = "discrete" then
    bits.head?.map (fun b => if b then (1 : ℚ) else 0)
  else if count = 1 then
    registers.head?.map (fun r => (r : ℚ))
  else if count = 2 then
    match registers with
    | high :: low :: _ => some (((high <<< 16) ||| low : ℕ) : ℚ)
    | _ => none
  else
    registers.head?.map (fun r => (r : ℚ))

/-! ## Helper lemmas -/

/-- The RestrictedPython compilation of `"_result_ = <formula>"` always
reports at least the error for the assignment target `_result_`. -/
lemma compileRestrictedErrors_result_cons (e : FExpr) :
    compileRestrictedErrors "_result_" e =
      "\"_result_\" is an invalid variable name because it starts with \"_\"" ::
        (e.names.filter restrictedName).map
          (fun n => "\"" ++ n ++ "\" is an invalid variable name because it starts with \"_\"") := by
  have h : restrictedName "_result_" = true := by decide
  simp [compileRestrictedErrors, h]

/-- The embedded `validate_formula` never reports a formula as valid: the wrapper
statement `_result_ = <formula>` is itself rejected. -/
lemma validate_formula_fst_false (e : FExpr) : (validate_formula e).1 = false := by
  unfold validate_formula
  cases h : findForbidden e with
  | some w => simp
  | none => rw [compileRestrictedErrors_result_cons]

/-- The embedded `evaluate_formula` consequently rejects every formula with an
invalid-formula error. -/
lemma evaluate_formula_always_invalid (e : FExpr) (v : ℚ)
    (extra : List (String × PyVal)) :
    ∃ msg, evaluate_formula e v extra = .error (.invalidFormula msg) := by
  unfold evaluate_formula
  rcases hv : validate_formula e with ⟨b, err⟩
  have hb : b = false := by
    have := validate_formula_fst_false e
    rw [hv] at this
    exact this
  subst hb
  exact ⟨_, rfl⟩

/-! ## Theorems for the claims -/

/-- C8: For a numeric Modbus register type (`holding` or `input`),
`count = 2` returns the big-endian 32-bit concatenation
`(high <<< 16) ||| low` of the two registers — in particular registers
`[0x0001, 0x2345]` yield `74565.0`; `count = 1` returns the single
16-bit register; any larger count returns the first register. -/
theorem C8_modbus_numeric_extraction (rt : String)
    (hrt : rt = "holding" ∨ rt = "input") (bits : List Bool) :
    (∀ high low rest, modbusReadValue rt 2 bits (high :: low :: rest) =
        some (((high <<< 16) ||| low : ℕ) : ℚ))
    ∧ (∀ r rest, modbusReadValue rt 1 bits (r :: rest) = some (r : ℚ))
    ∧ (∀ c, 2 < c → ∀ r rest,
        modbusReadValue rt c bits (r :: rest) = some (r : ℚ))
    ∧ modbusReadValue rt 2 bits [1, 0x2345] = some 74565 := by
  have hne : ¬ (rt = "coil" ∨ rt = "discrete") := by
    rcases hrt with h | h <;> subst h <;> decide
  refine ⟨?_, ?_, ?_, ?_⟩
  · intro high low rest
    simp [modbusReadValue, hne]
  · intro r rest
    simp [modbusReadValue, hne]
  · intro c hc r rest
    have h1 : c ≠ 1 := by omega
    have h2 : c ≠ 2 := by omega
    simp [modbusReadValue, hne, h1, h2]
  · have h74 : (1 <<< 16 ||| 0x2345 : ℕ) = 74565 := by decide
    simp [modbusReadValue, hne, h74]

/-- Witness for C8: concrete evaluation at `holding`, registers
`[0x0001, 0x2345]`. -/
theorem C8_modbus_numeric_extraction_witness :
    modbusReadValue "holding" 2 [] [1, 0x2345] = some 74565 :=
  (C8_modbus_numeric_extraction "holding" (Or.inl rfl) []).2.2.2

/-- C4 (code bug): `cleanup_synced` sets `cutoff = datetime.utcnow()`
and never uses its `older_than_hours` argument, so every synced row with
a past `synced_at` is deleted: a row synced only one hour before `now`
is deleted even though `older_than_hours = 24`, and the result of
`cleanup_synced` does not depend on `older_than_hours` at all. -/
theorem C4_cleanup_ignores_horizon :
    cleanupSynced [⟨1, 5, 999000, true, some 996400⟩] 24 1000000 = ([], 1)
    ∧ (∀ (db : List BufReading) (hours hours' now : ℚ),
        cleanupSynced db hours now = cleanupSynced db hours' now) := by
  constructor
  · decide
  · intro db hours hours' now
    rfl

/-- C9: every `VirtualOutputDriver.write` call updates the stored value
and attempts the sink write, then raises `AttributeError` on the
assignment to the setter-less `last_value` property, so it never returns
ok and `orchestrator.write_sensor` on a virtual-output sensor never
returns success. -/
theorem C9_virtual_output_write_raises (st : VOState) (value now : ℚ) :
    (virtualOutputWrite st value now).result = .error "AttributeError"
    ∧ (virtualOutputWrite st value now).state.currentValue = value
    ∧ (virtualOutputWrite st value now).state.lastWriteTime = some now
    ∧ (virtualOutputWrite st value now).sinkWriteAttempted = true
    ∧ (∀ (present running : Bool) (st' : VOState),
        writeSensorVirtualOutput present running st' value now ≠ .ok true) := by
  refine ⟨rfl, rfl, rfl, rfl, ?_⟩
  intro present running st'
  cases present <;> cases running <;>
    simp [writeSensorVirtualOutput, virtualOutputWrite,
      baseDriverLastValueHasSetter]

/-- C6 (code bug): `validate_formula` never returns ok — the exec
wrapper `_result_ = <formula>` is rejected by RestrictedPython's rule
against names starting with an underscore — so the claim's premise
`validate(expr) = ok` is unsatisfiable, the repo's own unit tests
(which assert `validate_formula("val * 2")` is valid) fail, and
`evaluate_formula` fails with an invalid-formula error on every input. -/
theorem C6_validate_never_ok :
    (∀ e : FExpr, (validate_formula e).1 = false)
    ∧ ((validate_formula (.mul (.name "val") (.lit 2))).1 = false)
    ∧ (∀ (e : FExpr) (v : ℚ) (extra : List (String × PyVal)),
        ∃ msg, evaluate_formula e v extra = .error (.invalidFormula msg)) :=
  ⟨validate_formula_fst_false,
   validate_formula_fst_false _,
   evaluate_formula_always_invalid⟩

/-- C3 (counterexample): after `remove_sensor(1)` has returned — both
registry maps are empty for the id — a value event for sensor 1 is still
delivered to the registered value-subscriber instead of being dropped. -/
theorem C3_counterexample_removed_sensor_still_delivered :
    let st1 : OrchState :=
      ⟨fun i => if i = 1 then some ⟨"temp", true⟩ else none,
       fun i => if i = 1 then some (.name "val") else none⟩
    let st' := (removeSensor st1 1).1
    st'.drivers 1 = none ∧ st'.formulas 1 = none ∧
      handleValue st' 1 3 77 1 = [(0, 1, 3, 3, 77)] := by
  intro st1 st'
  obtain ⟨msg, hm⟩ :=
    evaluate_formula_always_invalid (FExpr.name "val") 3 []
  refine ⟨rfl, rfl, ?_⟩
  simp [handleValue, st', st1, removeSensor, hm]
  rfl

/-- C3 (amended): a value event whose sensor id has no stored formula is
not dropped: the formula lookup falls back to the default `"val"`, the
processed value equals the raw value, and the event is delivered to
every registered value-subscriber in registration order. -/
theorem C3_unregistered_value_still_delivered (st : OrchState) (sid : ℤ)
    (raw ts : ℚ) (n : ℕ) (h : st.formulas sid = none) :
    handleValue st sid raw ts n =
      (List.range n).map (fun i => (i, sid, raw, raw, ts)) := by
  obtain ⟨msg, hm⟩ := evaluate_formula_always_invalid (FExpr.name "val") raw []
  simp [handleValue, h, hm]

/-- Witness for C3 (amended): the empty registry delivers the event
`(5, 3, 3, 77)` to the single subscriber. -/
theorem C3_unregistered_value_still_delivered_witness :
    handleValue ⟨fun _ => none, fun _ => none⟩ 5 3 77 1 = [(0, 5, 3, 3, 77)] := by
  have h := C3_unregistered_value_still_delivered
    ⟨fun _ => none, fun _ => none⟩ 5 3 77 1 rfl
  simpa using h

/-- C5 (counterexample): `add_sensor` stores the formula before invoking
`driver.start()`, so a failure raised by `start` leaves `_formulas`
populated for the id: on an empty registry, a start-failing
`add_sensor(7, …)` returns `False` with `_drivers[7]` absent but
`_formulas[7]` still set. -/
theorem C5_counterexample_start_failure_retains_formula :
    let out := addSensor ⟨fun _ => none, fun _ => none⟩ 7 "pump" "MODBUS_TCP"
      (.name "val") .startRaises
    out.2 = false ∧ out.1.drivers 7 = none ∧
      out.1.formulas 7 = some (.name "val") := by
  refine ⟨rfl, rfl, ?_⟩
  simp [addSensor, DRIVER_CLASSES]

/-- C5 (amended): on a registry with no entries for the id, a failure
during driver construction leaves both the driver registry and the
formula map empty for that id, while a failure during `start` leaves the
driver registry empty but retains the stored formula; both return
`False`. -/
theorem C5_add_sensor_failure_state (st : OrchState) (sid : ℤ)
    (nm protocol : String) (f : FExpr)
    (hdrv : st.drivers sid = none) (hfor : st.formulas sid = none)
    (hproto : (DRIVER_CLASSES protocol).isSome = true) :
    (addSensor st sid nm protocol f .constructRaises).1.drivers sid = none
    ∧ (addSensor st sid nm protocol f .constructRaises).1.formulas sid = none
    ∧ (addSensor st sid nm protocol f .constructRaises).2 = false
    ∧ (addSensor st sid nm protocol f .startRaises).1.drivers sid = none
    ∧ (addSensor st sid nm protocol f .startRaises).1.formulas sid = some f
    ∧ (addSensor st sid nm protocol f .startRaises).2 = false := by
  obtain ⟨cls, hcls⟩ := Option.isSome_iff_exists.mp hproto
  simp [addSensor, hdrv, hfor, hcls]

/-- Witness for C5 (amended): concrete instantiation on the empty
registry with protocol `MODBUS_TCP`. -/
theorem C5_add_sensor_failure_state_witness :
    (addSensor ⟨fun _ => none, fun _ => none⟩ 7 "pump" "MODBUS_TCP"
        (.name "val") .constructRaises).1.formulas 7 = none ∧
    (addSensor ⟨fun _ => none, fun _ => none⟩ 7 "pump" "MODBUS_TCP"
        (.name "val") .startRaises).1.formulas 7 = some (.name "val") := by
  have h := C5_add_sensor_failure_state ⟨fun _ => none, fun _ => none⟩ 7
    "pump" "MODBUS_TCP" (.name "val") rfl rfl (by decide)
  exact ⟨h.2.1, h.2.2.2.2.1⟩

/-- C1 (counterexample): the environment `_evaluate_rules` evaluates
conditions in is not the formula engine's safe function set united with
the caches: `sqrt` (like the rest of the safe set beyond
`abs`/`max`/`min`/`round`) is absent, so the condition `sqrt(4) > 1`
raises `NameError` under the engine's environment — the rule is skipped
— while under the claimed environment it evaluates to `True`. -/
theorem C1_counterexample_env_missing_sqrt :
    automationEnv (fun _ => none) (fun _ => none) "sqrt" = none
    ∧ specMultiVarEnv (fun _ => none) (fun _ => none) "sqrt" = some (.fnV "sqrt")
    ∧ pyEval (automationEnv (fun _ => none) (fun _ => none))
        (.gt (.call1 "sqrt" (.lit 4)) (.lit 1)) = .error (.nameError "sqrt")
    ∧ pyEval (specMultiVarEnv (fun _ => none) (fun _ => none))
        (.gt (.call1 "sqrt" (.lit 4)) (.lit 1)) = .ok (.boolV true)
    ∧ automationEnv (fun _ => none) (fun _ => none) ≠
        specMultiVarEnv (fun _ => none) (fun _ => none) := by
  refine ⟨?h1, ?h2, ?h3, ?h4, ?h5⟩
  case h1 => decide
  case h2 => decide
  case h3 => decide
  case h4 =>
    have hs : Nat.sqrt 4 = 2 := by
      rw [show (4 : ℕ) = 2 * 2 from rfl, Nat.sqrt_eq]
    simp [pyEval, specMultiVarEnv, pyUnion, ALLOWED_BUILTINS,
      safeFunctionNames, applyFn1, toNum, ratSqrt, hs, Except.instMonad,
      Except.bind, Except.map, Except.pure, Rat.num_ofNat, Rat.den_ofNat]
    norm_num
  case h5 =>
    intro h
    have h1 : automationEnv (fun _ => none) (fun _ => none) "sqrt" = none := by
      decide
    have h2 : specMultiVarEnv (fun _ => none) (fun _ => none) "sqrt" =
        some (.fnV "sqrt") := by decide
    rw [h, h2] at h1
    exact Option.noConfusion h1

/-- C1 (amended): rule conditions are evaluated by the builtin `eval`,
not the formula engine; the environment is exactly the four builtins
`{abs, max, min, round}` united with the sensor value cache and the
stats cache, the caches overriding the builtins and stats overriding
sensor values. -/
theorem C1_condition_environment (sv ts : String → Option ℚ) (n : String) :
    (∀ q, ts n = some q → automationEnv sv ts n = some (.num q))
    ∧ (ts n = none → ∀ q, sv n = some q → automationEnv sv ts n = some (.num q))
    ∧ (ts n = none → sv n = none → automationEnv sv ts n = autoAllowedNames n)
    ∧ ((autoAllowedNames n).isSome = true ↔
        n = "abs" ∨ n = "max" ∨ n = "min" ∨ n = "round") := by
  refine ⟨?_, ?_, ?_, ?_⟩
  · intro q hq
    simp [automationEnv, pyUnion, hq]
  · intro ht q hq
    simp [automationEnv, pyUnion, ht, hq]
  · intro ht hs
    simp [automationEnv, pyUnion, ht, hs]
  · unfold autoAllowedNames
    by_cases h : n = "abs" ∨ n = "max" ∨ n = "min" ∨ n = "round" <;> simp [h]

/-- Witness for C1 (amended): a sensor cache entry `temp ↦ 60` is
visible in the environment, and `sqrt` resolves to nothing. -/
theorem C1_condition_environment_witness :
    automationEnv (fun n => if n = "temp" then some 60 else none)
      (fun _ => none) "temp" = some (.num 60) ∧
    (autoAllowedNames "sqrt").isSome = false := by
  constructor
  · exact (C1_condition_environment
      (fun n => if n = "temp" then some 60 else none)
      (fun _ => none) "temp").2.1 rfl 60 rfl
  · decide

/-- C10: when a due rule's condition is true and its `target_formula`
fails to evaluate, the evaluation pass returns immediately: no write is
invoked for that rule, its `last_triggered` is left unchanged, and no
rule after it in iteration order is evaluated or fired for that event. -/
theorem C10_target_formula_failure_aborts_pass (now : ℚ)
    (env : String → Option PyVal) (wr : ℤ → ℚ → WriteRes) (r : ARule)
    (post : List ARule) (tf : FExpr) (v : PyVal) (exc : PyExc)
    (hcd : ¬ (now - r.lastTriggered < r.cooldown))
    (hcond : pyEval env r.condition = .ok v)
    (htrue : pyTruthy v = true)
    (htf : r.targetFormula = some tf)
    (hfail : targetWriteValue env r = .error exc) :
    evalRulesGo now env wr (r :: post) =
      ((r, none) :: post.map (fun s => (s, none)), true) := by
  simp [evalRulesGo, hcd, hcond, htrue, hfail]

/-- Witness for C10: a rule whose `target_formula` references the
unknown name `nope` aborts the pass, leaving the follow-up rule
unevaluated. -/
theorem C10_target_formula_failure_aborts_pass_witness :
    evalRulesGo 100
        (automationEnv (fun _ => none) (fun _ => none)) (fun _ _ => .retOk true)
        [⟨0, 0, .boolLit true, 7, 1, some (.name "nope")⟩,
         ⟨10, 0, .gt (.name "temp") (.lit 50), 7, 1, none⟩] =
      ([(⟨0, 0, .boolLit true, 7, 1, some (.name "nope")⟩, none),
        (⟨10, 0, .gt (.name "temp") (.lit 50), 7, 1, none⟩, none)], true) := by
  have h := C10_target_formula_failure_aborts_pass 100
    (automationEnv (fun _ => none) (fun _ => none)) (fun _ _ => .retOk true)
    ⟨0, 0, .boolLit true, 7, 1, some (.name "nope")⟩
    [⟨10, 0, .gt (.name "temp") (.lit 50), 7, 1, none⟩]
    (.name "nope") (.boolV true) (.nameError "nope")
    (by norm_num) rfl rfl rfl (by decide)
  simpa using h

/-- What one `_evaluate_rules` pass at time `now` may do to a single
rule `r`, expressed on its output pair (rule after the pass, optional
write call): the cooldown field is never modified; without a call,
`last_triggered` is unchanged; a call happens at time `now` and only
with the cooldown elapsed, and it updates `last_triggered` to `now`
exactly when the write did not raise. -/
def PassRel (now : ℚ) (r : ARule) (p : ARule × Option WriteCall) : Prop :=
  p.1.cooldown = r.cooldown ∧
  (p.2 = none → p.1.lastTriggered = r.lastTriggered) ∧
  ∀ c, p.2 = some c → c.time = now ∧ r.cooldown ≤ now - r.lastTriggered ∧
    (c.res = .raises → p.1.lastTriggered = r.lastTriggered) ∧
    (c.res ≠ .raises → p.1.lastTriggered = now)

lemma passRel_id (now : ℚ) (r : ARule) : PassRel now r (r, none) :=
  ⟨rfl, fun _ => rfl, fun c hc => by simp at hc⟩

lemma evalRulesGo_getElem (now : ℚ) (env : String → Option PyVal)
    (wr : ℤ → ℚ → WriteRes) :
    ∀ (rules : List ARule) (i : ℕ) (r : ARule), rules[i]? = some r →
      ∃ p, (evalRulesGo now env wr rules).1[i]? = some p ∧ PassRel now r p := by
  intro rules
  induction rules with
  | nil => intro i r h; simp at h
  | cons r0 rest ih =>
    intro i r h
    by_cases hcd : now - r0.lastTriggered < r0.cooldown
    · cases i with
      | zero =>
        simp only [List.getElem?_cons_zero, Option.some.injEq] at h
        subst h
        exact ⟨(r0, none), by simp [evalRulesGo, hcd], passRel_id now r0⟩
      | succ i =>
        simp only [List.getElem?_cons_succ] at h
        obtain ⟨p, hp, hrel⟩ := ih i r h
        exact ⟨p, by simp [evalRulesGo, hcd, hp], hrel⟩
    · rcases hcond : pyEval env r0.condition with exc | v
      · cases i with
        | zero =>
          simp only [List.getElem?_cons_zero, Option.some.injEq] at h
          subst h
          exact ⟨(r0, none), by simp [evalRulesGo, hcd, hcond], passRel_id now r0⟩
        | succ i =>
          simp only [List.getElem?_cons_succ] at h
          obtain ⟨p, hp, hrel⟩ := ih i r h
          exact ⟨p, by simp [evalRulesGo, hcd, hcond, hp], hrel⟩
      · by_cases htv : pyTruthy v = true
        · rcases htw : targetWriteValue env r0 with exc | q
          · cases i with
            | zero =>
              simp only [List.getElem?_cons_zero, Option.some.injEq] at h
              subst h
              exact ⟨(r0, none), by simp [evalRulesGo, hcd, hcond, htv, htw],
                passRel_id now r0⟩
            | succ i =>
              simp only [List.getElem?_cons_succ] at h
              refine ⟨(r, none), ?_, passRel_id now r⟩
              simp [evalRulesGo, hcd, hcond, htv, htw, h]
          · cases i with
            | zero =>
              simp only [List.getElem?_cons_zero, Option.some.injEq] at h
              subst h
              refine ⟨(if wr r0.targetSensorId q = .raises then r0
                        else { r0 with lastTriggered := now },
                       some ⟨now, r0.targetSensorId, q, wr r0.targetSensorId q⟩),
                ?_, ?_, ?_, ?_⟩
              · simp [evalRulesGo, hcd, hcond, htv, htw]
              · by_cases hres : wr r0.targetSensorId q = .raises <;> simp [hres]
              · simp
              · intro c hc
                simp only [Option.some.injEq] at hc
                subst hc
                refine ⟨rfl, le_of_not_lt (by simpa using hcd), ?_, ?_⟩
                · intro hres
                  simp only [WriteCall.res] at hres
                  simp [hres]
                · intro hres
                  simp only [WriteCall.res, ne_eq] at hres
                  simp [hres]
            | succ i =>
              simp only [List.getElem?_cons_succ] at h
              obtain ⟨p, hp, hrel⟩ := ih i r h
              exact ⟨p, by simp [evalRulesGo, hcd, hcond, htv, htw, hp], hrel⟩
        · cases i with
          | zero =>
            simp only [List.getElem?_cons_zero, Option.some.injEq] at h
            subst h
            exact ⟨(r0, none), by simp [evalRulesGo, hcd, hcond, htv],
              passRel_id now r0⟩
          | succ i =>
            simp only [List.getElem?_cons_succ] at h
            obtain ⟨p, hp, hrel⟩ := ih i r h
            exact ⟨p, by simp [evalRulesGo, hcd, hcond, htv, hp], hrel⟩

lemma autoStep_getElem (st : AutoState) (ev : AutoEvent) (i : ℕ) (r : ARule)
    (h : st.rules[i]? = some r) :
    ∃ p : ARule × Option WriteCall,
      (autoStep st ev).1.rules[i]? = some p.1 ∧
      (autoStep st ev).2[i]? = some p.2 ∧ PassRel ev.time r p := by
  have hlen : i < st.rules.length := by
    rcases List.getElem?_eq_some.mp h with ⟨hl, _⟩
    exact hl
  unfold autoStep
  by_cases hrun : st.running
  · cases hnm : ev.driverName with
    | none =>
      refine ⟨(r, none), ?_, ?_, passRel_id ev.time r⟩
      · simp [hrun, hnm, h]
      · simp [hrun, hnm, List.getElem?_replicate, hlen]
    | some nm =>
      obtain ⟨p, hp, hrel⟩ := evalRulesGo_getElem ev.time
        (automationEnv
          (fun n => if n = nm then some ev.value else st.sensorValues n)
          st.statsValues)
        ev.wr st.rules i r h
      refine ⟨p, ?_, ?_, hrel⟩
      · simp [hrun, hnm, List.getElem?_map, hp]
      · simp [hrun, hnm, List.getElem?_map, hp]
  · refine ⟨(r, none), ?_, ?_, passRel_id ev.time r⟩
    · simp [hrun, h]
    · simp [hrun, List.getElem?_replicate, hlen]

lemma callsForRule_chain (cd : ℚ) :
    ∀ (evs : List AutoEvent) (st : AutoState) (i : ℕ) (r : ARule),
      st.rules[i]? = some r → r.cooldown = cd →
      List.Chain' (fun a b => a.res ≠ .raises → a.time + cd ≤ b.time)
        (callsForRule i st evs) ∧
      (∀ c, (callsForRule i st evs).head? = some c →
        r.lastTriggered + cd ≤ c.time) := by
  intro evs
  induction evs with
  | nil => intro st i r _ _; simp [callsForRule]
  | cons ev evs ih =>
    intro st i r h hcd
    obtain ⟨p, hp1, hp2, hrel⟩ := autoStep_getElem st ev i r h
    obtain ⟨hcool, hnone, hsome⟩ := hrel
    rcases hoc : p.2 with _ | c
    · rw [hoc] at hp2
      have hlist : callsForRule i st (ev :: evs) =
          callsForRule i (autoStep st ev).1 evs := by
        rw [callsForRule, hp2]
      obtain ⟨ch, hd⟩ := ih (autoStep st ev).1 i p.1 hp1 (hcool.trans hcd)
      rw [hlist]
      refine ⟨ch, fun c hc => ?_⟩
      have := hd c hc
      rw [hnone hoc] at this
      exact this
    · rw [hoc] at hp2
      have hlist : callsForRule i st (ev :: evs) =
          c :: callsForRule i (autoStep st ev).1 evs := by
        rw [callsForRule, hp2]
      obtain ⟨hct, hcdle, hraise, hok⟩ := hsome c hoc
      obtain ⟨ch, hd⟩ := ih (autoStep st ev).1 i p.1 hp1 (hcool.trans hcd)
      rw [hlist]
      constructor
      · rw [List.chain'_cons']
        refine ⟨fun b hb hres => ?_, ch⟩
        have hb' := hd b hb
        rw [hok hres, ← hct] at hb'
        exact hb'
      · intro c' hc'
        simp only [List.head?_cons, Option.some.injEq] at hc'
        subst hc'
        rw [hct, ← hcd]
        linarith

/-- C2 (counterexample): a rule with `cooldown_s = 10` targeting a
sensor whose `write` raises — as every virtual-output write does — has
its action performed twice only one second apart: `last_triggered` is
set only after `write_sensor` returns, so a raising write leaves it at
`0` and the very next value event fires the rule again. -/
theorem C2_counterexample_raising_write_defeats_cooldown :
    callsForRule 0
        ⟨[⟨10, 0, .gt (.name "temp") (.lit 50), 7, 1, none⟩],
          fun _ => none, fun _ => none, true⟩
        [⟨100, some "temp", 60, fun _ _ => .raises⟩,
         ⟨101, some "temp", 60, fun _ _ => .raises⟩] =
      [⟨100, 7, 1, .raises⟩, ⟨101, 7, 1, .raises⟩]
    ∧ (101 : ℚ) - 100 < 10 := by
  constructor
  · norm_num [callsForRule, autoStep, evalRulesGo, automationEnv, pyUnion,
      autoAllowedNames, pyEval, toNum, pyTruthy, targetWriteValue,
      Except.instMonad, Except.bind, Except.map, Except.pure,
      Option.orElse, Option.map]
  · norm_num

/-- C2 (amended): successive `write_sensor` invocations for the same
rule respect the cooldown whenever the earlier write completed without
raising: in the call sequence of any rule over any event stream,
a call whose write did not raise is followed (if at all) by a call at
least `cooldown_s` later. A call whose write raised does not update
`last_triggered` and places no bound on the next call. -/
theorem C2_cooldown_between_calls (st : AutoState) (evs : List AutoEvent)
    (i : ℕ) (r : ARule) (h : st.rules[i]? = some r) :
    List.Chain' (fun a b => a.res ≠ .raises → a.time + r.cooldown ≤ b.time)
      (callsForRule i st evs) :=
  (callsForRule_chain r.cooldown evs st i r h rfl).1

/-- Witness for C2 (amended): a rule with cooldown `10` and successful
writes, hit by value events at t = 100, 101 and 111, fires at 100 and
111 — the call list satisfies the cooldown chain. -/
theorem C2_cooldown_between_calls_witness :
    List.Chain'
      (fun a b => a.res ≠ WriteRes.raises →
        a.time + (⟨10, 0, .gt (.name "temp") (.lit 50), 7, 1, none⟩ : ARule).cooldown ≤ b.time)
      (callsForRule 0
        ⟨[⟨10, 0, .gt (.name "temp") (.lit 50), 7, 1, none⟩],
          fun _ => none, fun _ => none, true⟩
        [⟨100, some "temp", 60, fun _ _ => .retOk true⟩,
         ⟨101, some "temp", 60, fun _ _ => .retOk true⟩,
         ⟨111, some "temp", 60, fun _ _ => .retOk true⟩]) :=
  C2_cooldown_between_calls
    ⟨[⟨10, 0, .gt (.name "temp") (.lit 50), 7, 1, none⟩],
      fun _ => none, fun _ => none, true⟩
    [⟨100, some "temp", 60, fun _ _ => .retOk true⟩,
     ⟨101, some "temp", 60, fun _ _ => .retOk true⟩,
     ⟨111, some "temp", 60, fun _ _ => .retOk true⟩]
    0 ⟨10, 0, .gt (.name "temp") (.lit 50), 7, 1, none⟩ rfl

/-! Sortedness instances for the flush selection order. -/

instance : IsTotal BufReading (fun a b => a.timestamp ≤ b.timestamp) :=
  ⟨fun a b => le_total a.timestamp b.timestamp⟩

instance : IsTrans BufReading (fun a b => a.timestamp ≤ b.timestamp) :=
  ⟨fun _ _ _ h h' => le_trans h h'⟩

/-- Invariant carried through a sequence of `flush` calls: row ids stay
unique, the two tracked rows persist with their ids and timestamps, and
the later row is synced only if the earlier row is. -/
def FlushInv (r1 r2 : BufReading) (db : List BufReading) : Prop :=
  (db.map (fun r => r.id)).Nodup ∧
  ∃ a b, a ∈ db ∧ b ∈ db ∧ a.id = r1.id ∧ b.id = r2.id ∧
    a.timestamp = r1.timestamp ∧ b.timestamp = r2.timestamp ∧
    (b.synced = true → a.synced = true)

lemma flushStep_markMap_id (ids : List ℕ) (now : ℚ) (r : BufReading) :
    (if r.id ∈ ids then { r with synced := true, syncedAt := some now }
     else r).id = r.id := by
  split <;> rfl

lemma flushStep_markMap_timestamp (ids : List ℕ) (now : ℚ) (r : BufReading) :
    (if r.id ∈ ids then { r with synced := true, syncedAt := some now }
     else r).timestamp = r.timestamp := by
  split <;> rfl

lemma flushStep_inv (batchSize : ℕ) (connected : Bool) (written : ℕ)
    (now : ℚ) (r1 r2 : BufReading) (hts : r1.timestamp < r2.timestamp)
    (db : List BufReading) (h : FlushInv r1 r2 db) :
    FlushInv r1 r2 (flushStep batchSize db connected written now) := by
  obtain ⟨hnodup, a, b, ha, hb, haid, hbid, hats, hbts, himp⟩ := h
  unfold flushStep
  by_cases hconn : connected
  · simp only [hconn, Bool.true_eq_false, not_true_eq_false, if_false,
      Bool.not_true, if_neg, not_not]
    by_cases hemp : ((unsyncedSorted db).take batchSize).isEmpty
    · simpa [hemp] using ⟨hnodup, a, b, ha, hb, haid, hbid, hats, hbts, himp⟩
    · by_cases hw : 0 < written
      · simp only [hemp, hw, if_true, if_false, Bool.false_eq_true]
        set ids : List ℕ :=
          (((unsyncedSorted db).take batchSize).take written).map
            (fun r => r.id) with hids
        set f : BufReading → BufReading := fun r =>
          if r.id ∈ ids then { r with synced := true, syncedAt := some now }
          else r with hf
        have hfid : ∀ r, (f r).id = r.id := fun r =>
          flushStep_markMap_id ids now r
        have hfts : ∀ r, (f r).timestamp = r.timestamp := fun r =>
          flushStep_markMap_timestamp ids now r
        refine ⟨?_, f a, f b, List.mem_map_of_mem f ha,
          List.mem_map_of_mem f hb, (hfid a).trans haid, (hfid b).trans hbid,
          (hfts a).trans hats, (hfts b).trans hbts, ?_⟩
        · rw [List.map_map]
          have : ((fun r => r.id) ∘ f) = fun r : BufReading => r.id := by
            funext r
            exact hfid r
          rw [this]
          exact hnodup
        · intro hfb
          by_cases hbin : b.id ∈ ids
          · -- b was selected and marked; show a is marked or already synced
            by_cases hasync : a.synced = true
            · show (f a).synced = true
              by_cases hain' : a.id ∈ ids
              · simp [hf, hain']
              · simp [hf, hain', hasync]
            · -- a is unsynced: it precedes b in the sorted selection
              have hain : a.id ∈ ids := by
                rw [hids, List.take_take] at hbin ⊢
                obtain ⟨x, hx, hxid⟩ := List.mem_map.mp hbin
                have hxdb : x ∈ db := by
                  have hx1 : x ∈ unsyncedSorted db := List.mem_of_mem_take hx
                  have hx2 : x ∈ db.filter (fun r => !r.synced) :=
                    (List.perm_insertionSort _ _).mem_iff.mp hx1
                  exact List.mem_of_mem_filter hx2
                have hxb : x = b := by
                  refine List.inj_on_of_nodup_map hnodup hxdb hb ?_
                  simpa using hxid
                subst hxb
                have hasorted : a ∈ unsyncedSorted db := by
                  refine (List.perm_insertionSort _ _).mem_iff.mpr ?_
                  refine List.mem_filter.mpr ⟨ha, ?_⟩
                  simp [hasync]
                have hatake :
                    a ∈ (unsyncedSorted db).take (written ⊓ batchSize) := by
                  by_contra hnot
                  have hadrop :
                      a ∈ (unsyncedSorted db).drop (written ⊓ batchSize) := by
                    have := List.take_append_drop (written ⊓ batchSize)
                      (unsyncedSorted db)
                    have hmem := hasorted
                    rw [← this, List.mem_append] at hmem
                    rcases hmem with hmem | hmem
                    · exact absurd hmem hnot
                    · exact hmem
                  have hsorted : List.Sorted
                      (fun x y : BufReading => x.timestamp ≤ y.timestamp)
                      (unsyncedSorted db) :=
                    List.sorted_insertionSort _ _
                  have hle := hsorted.rel_of_mem_take_of_mem_drop hx hadrop
                  rw [hats, hbts] at hle
                  exact absurd hle (not_le.mpr hts)
                exact List.mem_map.mpr ⟨a, hatake, rfl⟩
              show (f a).synced = true
              simp [hf, hain]
          · -- b was not selected: it was already synced before this flush
            have hbsync : b.synced = true := by
              simpa [hf, hbin] using hfb
            have hasync := himp hbsync
            show (f a).synced = true
            by_cases hain' : a.id ∈ ids
            · simp [hf, hain']
            · simp [hf, hain', hasync]
      · simp only [hemp, hw, if_false, Bool.false_eq_true]
        exact ⟨hnodup, a, b, ha, hb, haid, hbid, hats, hbts, himp⟩
  · simpa [hconn] using ⟨hnodup, a, b, ha, hb, haid, hbid, hats, hbts, himp⟩

lemma flushRun_inv (batchSize : ℕ) (r1 r2 : BufReading)
    (hts : r1.timestamp < r2.timestamp) :
    ∀ (runs : List FlushEnv) (db : List BufReading), FlushInv r1 r2 db →
      FlushInv r1 r2 (flushRun batchSize db runs) := by
  intro runs
  induction runs with
  | nil => intro db h; exact h
  | cons e es ih =>
    intro db h
    exact ih _ (flushStep_inv batchSize e.connected e.written e.now
      r1 r2 hts db h)

/-- C7: over any sequence of `flush` calls, drain order follows
timestamp order: for two initially-unsynced readings of the same sensor
with `R1.timestamp < R2.timestamp` (in a table with unique row ids),
whenever R2's row has been marked synced, R1's row has been marked
synced as well — each flush selects up to `batch_size` unsynced rows in
ascending timestamp order and marks exactly the accepted prefix. -/
theorem C7_flush_fifo_order (batchSize : ℕ) (db : List BufReading)
    (runs : List FlushEnv) (r1 r2 : BufReading)
    (hnodup : (db.map (fun r => r.id)).Nodup)
    (h1 : r1 ∈ db) (h2 : r2 ∈ db)
    (hsid : r1.sensorId = r2.sensorId)
    (hts : r1.timestamp < r2.timestamp)
    (hs1 : r1.synced = false) (hs2 : r2.synced = false) :
    ∀ r1' r2', r1' ∈ flushRun batchSize db runs →
      r2' ∈ flushRun batchSize db runs →
      r1'.id = r1.id → r2'.id = r2.id →
      r2'.synced = true → r1'.synced = true := by
  have hinv0 : FlushInv r1 r2 db := by
    refine ⟨hnodup, r1, r2, h1, h2, rfl, rfl, rfl, rfl, fun hb => ?_⟩
    rw [hs2] at hb
    exact absurd hb (by simp)
  obtain ⟨hnodup', a, b, ha, hb, haid, hbid, hats, hbts, himp⟩ :=
    flushRun_inv batchSize r1 r2 hts runs db hinv0
  intro r1' r2' h1' h2' hid1 hid2 hsync2
  have heq2 : r2' = b :=
    List.inj_on_of_nodup_map hnodup' h2' hb (by rw [hid2, hbid])
  have heq1 : r1' = a :=
    List.inj_on_of_nodup_map hnodup' h1' ha (by rw [hid1, haid])
  subst heq1
  subst heq2
  exact himp hsync2

/-- Witness for C7: two unsynced rows of sensor 0 (ids 2 and 1, with
timestamps 5 < 10), one successful flush of batch size 2 — both rows
are found marked synced, and the theorem yields the FIFO conclusion for
the concrete marked rows. -/
theorem C7_flush_fifo_order_witness :
    (⟨2, 0, 5, true, some 100⟩ : BufReading).synced = true :=
  C7_flush_fifo_order 2
    [⟨1, 0, 10, false, none⟩, ⟨2, 0, 5, false, none⟩]
    [⟨true, 2, 100⟩]
    ⟨2, 0, 5, false, none⟩ ⟨1, 0, 10, false, none⟩
    (by decide) (by decide) (by decide) rfl (by decide) rfl rfl
    ⟨2, 0, 5, true, some 100⟩ ⟨1, 0, 10, true, some 100⟩
    (by decide) (by decide) rfl rfl rfl
